import Mathlib

/-!
Verification of the SparrowTrack attendance engine
(`src/Backend/attendance-handler.js`), shallowly embedded in Lean 4.

Modelling conventions:
* Wall-clock times (`HH:MM:SS` strings) are modelled by the `Time`
  structure; `calculateHours` turns the `Date` subtraction on a fixed
  common date into a difference of seconds-of-day, in rational hours.
* Calendar dates (`YYYY-MM-DD` strings) are modelled by their day
  number (`Nat`); all the JavaScript code does with dates relevant to
  the claims is compare them (`new Date(a) >= new Date(b)`), add days,
  and use them as keys, which day numbers support faithfully.
* Absolute instants (`toISOString()`) are opaque; we use `Nat`.
* The record store (`DataManager` over `localStorage`) is a mapping
  userEmail -> date -> record, modelled as nested association lists.
  `localStorage.setItem` either succeeds or throws leaving storage
  unchanged; we model that with a `writeOk` flag: on `false` the
  operation returns the failure result and the persisted store is the
  input store, exactly as a throwing `setItem` behaves.
* JavaScript truthiness on the optional string fields `punchIn` /
  `punchOut` is `Option.isSome` (a real `HH:MM:SS` time is never the
  empty string); numbers are rationals (`x || 0` is the identity on
  them).
-/

/-- A wall-clock time of day, the model of an `HH:MM:SS` string. -/
structure Time where
  hh : Nat
  mm : Nat
  ss : Nat
deriving DecidableEq, Repr

/-- Seconds since midnight; `new Date("2000-01-01 " + t)` differs from
midnight of that date by exactly this many seconds. -/
def Time.toSeconds (t : Time) : Nat :=
  t.hh * 3600 + t.mm * 60 + t.ss

/-- `AttendanceHandler.calculateHours(startTime, endTime)`:
`Math.max(0, (end - start) / (1000 * 60 * 60))` where both times are
placed on the common date `2000-01-01`. -/
def calculateHours (startTime endTime : Time) : ℚ :=
  max 0 (((endTime.toSeconds : ℚ) - (startTime.toSeconds : ℚ)) / 3600)

/-- JavaScript `Math.round`: round half up, i.e. `⌊x + 1/2⌋`. -/
def jsRound (q : ℚ) : ℤ :=
  ⌊q + 1/2⌋

/-- `AttendanceHandler.formatHours(hours)`: split into
`wholeHours = Math.floor(hours)` and
`minutes = Math.round((hours - wholeHours) * 60)`, then render. -/
def formatHours (hours : ℚ) : String :=
  let wholeHours : ℤ := ⌊hours⌋
  let minutes : ℤ := jsRound ((hours - (wholeHours : ℚ)) * 60)
  if wholeHours = 0 then
    toString minutes ++ " minutes"
  else if minutes = 0 then
    toString wholeHours ++ (if wholeHours = 1 then " hour" else " hours")
  else
    toString wholeHours ++ "h " ++ toString minutes ++ "m"

/-- One persisted attendance record (one user, one date), as created
and updated by `punchIn` / `punchOut`. -/
structure AttendanceRecord where
  date : Nat
  punchIn : Option Time
  punchInTimestamp : Option Nat
  punchOut : Option Time
  punchOutTimestamp : Option Nat
  workingHours : ℚ
  notes : String
deriving DecidableEq, Repr

/-- A user's records: a mapping date -> record (a JS object keyed by
date strings). -/
abbrev UserRecords := List (Nat × AttendanceRecord)

/-- The persisted attendance mapping userEmail -> date -> record. -/
abbrev Store := List (String × UserRecords)

/-- Key lookup in an association list (JS property access `obj[k]`). -/
def lookupEntry {α β : Type} [DecidableEq α] (k : α) : List (α × β) → Option β
  | [] => none
  | (k₁, v) :: rest => if k₁ = k then some v else lookupEntry k rest

/-- Key update/insert in an association list (JS `obj[k] = v`). -/
def setEntry {α β : Type} [DecidableEq α] (k : α) (v : β) : List (α × β) → List (α × β)
  | [] => [(k, v)]
  | (k₁, v₁) :: rest => if k₁ = k then (k, v) :: rest else (k₁, v₁) :: setEntry k v rest

/-- `records[userEmail]?.[date]`: the record a user has for a date. -/
def lookupRecord (store : Store) (userEmail : String) (date : Nat) : Option AttendanceRecord :=
  match lookupEntry userEmail store with
  | none => none
  | some userRecords => lookupEntry date userRecords

/-- `records[userEmail] = records[userEmail] || {}; records[userEmail][date] = rec`. -/
def setRecord (store : Store) (userEmail : String) (date : Nat) (rec : AttendanceRecord) : Store :=
  setEntry userEmail (setEntry date rec ((lookupEntry userEmail store).getD [])) store

/-- The ambient clock: `getCurrentDate()`, `getCurrentTime()` and
`new Date().toISOString()` at the moment an operation runs. -/
structure Env where
  today : Nat
  currentTime : Time
  nowInstant : Nat

theorem lookupEntry_setEntry_self {α β : Type} [DecidableEq α] (k : α) (v : β)
    (l : List (α × β)) : lookupEntry k (setEntry k v l) = some v := by
  induction l with
  | nil => simp [setEntry, lookupEntry]
  | cons hd tl ih =>
    obtain ⟨k₁, v₁⟩ := hd
    by_cases h : k₁ = k
    · simp [setEntry, lookupEntry, h]
    · simp [setEntry, lookupEntry, h, ih]

/-- Result of `AttendanceHandler.punchIn` (the discriminated
success/failure object, identified by its message). -/
inductive PunchInResult
  | invalidUser
  | alreadyPunchedIn
  | persistenceFailure
  | ok (punchInTime : Time) (date : Nat)
deriving DecidableEq, Repr

/-- `AttendanceHandler.punchIn(userEmail)`.  Returns the result
together with the persisted store after the call (`writeOk` tells
whether `localStorage.setItem` succeeds; on failure it throws and the
persisted mapping is unchanged). -/
def punchIn (env : Env) (store : Store) (writeOk : Bool) (userEmail : String) :
    PunchInResult × Store :=
  if userEmail = "" then (.invalidUser, store)
  else
    let today := env.today
    let existing := lookupRecord store userEmail today
    if (existing.map (·.punchIn.isSome)).getD false then
      (.alreadyPunchedIn, store)
    else
      let newRecord : AttendanceRecord :=
        ⟨today, some env.currentTime, some env.nowInstant, none, none, 0, ""⟩
      if writeOk then
        (.ok env.currentTime today, setRecord store userEmail today newRecord)
      else
        (.persistenceFailure, store)

/-- Result of `AttendanceHandler.punchOut`. -/
inductive PunchOutResult
  | invalidUser
  | noPunchInFound
  | alreadyPunchedOut
  | punchInMissing
  | persistenceFailure
  | ok (punchOutTime : Time) (workingHours : ℚ) (formattedHours : String) (date : Nat)
deriving DecidableEq, Repr

/-- The record produced by a successful punch-out: the existing
record with `punchOut`, `punchOutTimestamp`, `workingHours` and
trimmed `notes` updated in place. -/
def closeRecord (rec : AttendanceRecord) (t : Time) (ts : Nat) (wh : ℚ)
    (notes : String) : AttendanceRecord :=
  ⟨rec.date, rec.punchIn, rec.punchInTimestamp, some t, some ts, wh, notes.trim⟩

/-- `AttendanceHandler.punchOut(userEmail, notes)`. -/
def punchOut (env : Env) (store : Store) (writeOk : Bool) (userEmail : String)
    (notes : String) : PunchOutResult × Store :=
  if userEmail = "" then (.invalidUser, store)
  else
    match lookupRecord store userEmail env.today with
    | none => (.noPunchInFound, store)
    | some todayRecord =>
      if todayRecord.punchOut.isSome then (.alreadyPunchedOut, store)
      else
        match todayRecord.punchIn with
        | none => (.punchInMissing, store)
        | some pin =>
          let workingHours := calculateHours pin env.currentTime
          let updated := closeRecord todayRecord env.currentTime env.nowInstant
            workingHours notes
          if writeOk then
            (.ok env.currentTime workingHours (formatHours workingHours) env.today,
             setRecord store userEmail env.today updated)
          else
            (.persistenceFailure, store)

/-- `AttendanceHandler.getRecordStatus(record)`. -/
def getRecordStatus (record : AttendanceRecord) : String :=
  if record.punchIn.isNone then "No Punch In"
  else if record.punchIn.isSome && record.punchOut.isNone then "Missing Punch Out"
  else if record.workingHours < 4 then "Short Day"
  else if 8 ≤ record.workingHours then "Full Day"
  else "Partial Day"

/-- One element of the array returned by `getAttendanceHistory`: the
stored record enriched with formatted hours and a status label.  (The
locale-formatted date string is presentation-only and not modelled.) -/
structure HistoryEntry where
  date : Nat
  punchIn : Option Time
  punchOut : Option Time
  workingHours : ℚ
  formattedHours : String
  notes : String
  status : String
deriving DecidableEq, Repr

/-- The enrichment `getAttendanceHistory` applies to one record. -/
def enrich (date : Nat) (record : AttendanceRecord) : HistoryEntry :=
  ⟨date, record.punchIn, record.punchOut, record.workingHours,
   formatHours record.workingHours, record.notes, getRecordStatus record⟩

/-- The sort comparator `(a, b) => new Date(b.date) - new Date(a.date)`:
newest first. -/
def newestFirst (a b : HistoryEntry) : Prop := b.date ≤ a.date

instance : DecidableRel newestFirst := fun a b => Nat.decLe b.date a.date

instance : IsTotal HistoryEntry newestFirst :=
  ⟨fun a b => Nat.le_total b.date a.date⟩

instance : IsTrans HistoryEntry newestFirst :=
  ⟨fun _ _ _ hab hbc => Nat.le_trans hbc hab⟩

/-- `AttendanceHandler.getAttendanceHistory(userEmail, startDate, endDate)`:
filter the user's records to the inclusive range, enrich, sort newest
first. -/
def getAttendanceHistory (store : Store) (userEmail : String)
    (startDate endDate : Nat) : List HistoryEntry :=
  let userRecords := (lookupEntry userEmail store).getD []
  let inRange := userRecords.filter
    (fun p => decide (startDate ≤ p.1) && decide (p.1 ≤ endDate))
  List.insertionSort newestFirst (inRange.map (fun p => enrich p.1 p.2))

/-- The `forEach` body both summaries run over the history:
accumulator `(totalHours, daysWorked, daysPresent)`. -/
def sumStep (acc : ℚ × Nat × Nat) (record : HistoryEntry) : ℚ × Nat × Nat :=
  if record.punchIn.isSome then
    if 0 < record.workingHours then
      (acc.1 + record.workingHours, acc.2.1 + 1, acc.2.2 + 1)
    else
      (acc.1, acc.2.1, acc.2.2 + 1)
  else acc

/-- The monthly `forEach` body additionally counts
`fullDays` (days worked with at least 8 hours); accumulator
`(totalHours, daysWorked, daysPresent, fullDays)`. -/
def monthStep (acc : ℚ × Nat × Nat × Nat) (record : HistoryEntry) :
    ℚ × Nat × Nat × Nat :=
  if record.punchIn.isSome then
    if 0 < record.workingHours then
      (acc.1 + record.workingHours, acc.2.1 + 1, acc.2.2.1 + 1,
       if 8 ≤ record.workingHours then acc.2.2.2 + 1 else acc.2.2.2)
    else
      (acc.1, acc.2.1, acc.2.2.1 + 1, acc.2.2.2)
  else acc

/-- The object returned by `getWeeklySummary`. -/
structure WeeklySummary where
  weekStart : Nat
  weekEnd : Nat
  totalHours : ℚ
  formattedTotalHours : String
  averageHours : ℚ
  formattedAverageHours : String
  daysWorked : Nat
  daysPresent : Nat
  records : List HistoryEntry
deriving Repr

/-- `AttendanceHandler.getWeeklySummary(userEmail, weekStartDate)`:
range `[weekStartDate, weekStartDate + 6]`. -/
def getWeeklySummary (store : Store) (userEmail : String)
    (weekStartDate : Nat) : WeeklySummary :=
  let endDate := weekStartDate + 6
  let history := getAttendanceHistory store userEmail weekStartDate endDate
  let agg := history.foldl sumStep (0, 0, 0)
  ⟨weekStartDate, endDate,
   agg.1, formatHours agg.1,
   (if 0 < agg.2.1 then agg.1 / (agg.2.1 : ℚ) else 0),
   (if 0 < agg.2.1 then formatHours (agg.1 / (agg.2.1 : ℚ)) else "0 hours"),
   agg.2.1, agg.2.2, history⟩

/-- The object returned by `getMonthlySummary`. -/
structure MonthlySummary where
  totalHours : ℚ
  formattedTotalHours : String
  averageHours : ℚ
  formattedAverageHours : String
  daysWorked : Nat
  daysPresent : Nat
  fullDays : Nat
  records : List HistoryEntry
deriving Repr

/-- `AttendanceHandler.getMonthlySummary(userEmail, year, month)`.
`monthStart` and `monthEnd` are the day numbers of
`new Date(year, month - 1, 1)` and `new Date(year, month, 0)` (first
and last day of the month); the claims under verification are
independent of that calendar arithmetic.  (`monthName` and
`workingDaysInMonth` are presentation/capacity fields not involved in
any claim and not modelled.) -/
def getMonthlySummary (store : Store) (userEmail : String)
    (monthStart monthEnd : Nat) : MonthlySummary :=
  let history := getAttendanceHistory store userEmail monthStart monthEnd
  let agg := history.foldl monthStep (0, 0, 0, 0)
  ⟨agg.1, formatHours agg.1,
   (if 0 < agg.2.1 then agg.1 / (agg.2.1 : ℚ) else 0),
   (if 0 < agg.2.1 then formatHours (agg.1 / (agg.2.1 : ℚ)) else "0 hours"),
   agg.2.1, agg.2.2.1, agg.2.2.2, history⟩

theorem lookupRecord_setRecord_self (store : Store) (u : String) (d : Nat)
    (rec : AttendanceRecord) : lookupRecord (setRecord store u d rec) u d = some rec := by
  simp [lookupRecord, setRecord, lookupEntry_setEntry_self]

/-- C3: for time-of-day values `start` and `end` on the same nominal
date, `calculateHours` returns `max 0 (end - start)` in fractional
hours; the result is always nonnegative, it is `0` whenever `end`
precedes or equals `start`, and it is the exact difference otherwise. -/
theorem calculateHours_spec (s e : Time) :
    calculateHours s e =
      max 0 (((e.toSeconds : ℚ) - (s.toSeconds : ℚ)) / 3600) ∧
    0 ≤ calculateHours s e ∧
    (e.toSeconds ≤ s.toSeconds → calculateHours s e = 0) ∧
    (s.toSeconds ≤ e.toSeconds →
      calculateHours s e = ((e.toSeconds : ℚ) - (s.toSeconds : ℚ)) / 3600) := by
  refine ⟨rfl, le_max_left _ _, ?_, ?_⟩
  · intro h
    have hnum : ((e.toSeconds : ℚ) - (s.toSeconds : ℚ)) ≤ 0 := by
      rw [sub_nonpos]
      exact_mod_cast h
    have hq : ((e.toSeconds : ℚ) - (s.toSeconds : ℚ)) / 3600 ≤ 0 :=
      div_nonpos_of_nonpos_of_nonneg hnum (by norm_num)
    exact max_eq_left hq
  · intro h
    have hnum : (0 : ℚ) ≤ ((e.toSeconds : ℚ) - (s.toSeconds : ℚ)) := by
      rw [sub_nonneg]
      exact_mod_cast h
    exact max_eq_right (div_nonneg hnum (by norm_num))

/-- C3 witness: at `start = 17:00:00`, `end = 09:00:00` the end
precedes the start and the result is `0`. -/
theorem calculateHours_spec_witness :
    Time.toSeconds ⟨9, 0, 0⟩ ≤ Time.toSeconds ⟨17, 0, 0⟩ ∧
    calculateHours ⟨17, 0, 0⟩ ⟨9, 0, 0⟩ = 0 :=
  ⟨by decide, (calculateHours_spec ⟨17, 0, 0⟩ ⟨9, 0, 0⟩).2.2.1 (by decide)⟩

/-- C7: `formatHours` splits its argument into whole hours and
round-half-up minutes and renders `"{m} minutes"` when the whole-hour
part is `0`, `"{h} hour(s)"` (singular iff the hour part is `1`) when
the minute part is `0`, and `"{h}h {m}m"` otherwise; in particular
`formatHours 0 = "0 minutes"`, `formatHours 1 = "1 hour"`,
`formatHours 1.5 = "1h 30m"` and `formatHours 2 = "2 hours"`. -/
theorem formatHours_spec :
    formatHours 0 = "0 minutes" ∧
    formatHours 1 = "1 hour" ∧
    formatHours (3/2) = "1h 30m" ∧
    formatHours 2 = "2 hours" ∧
    ∀ hours : ℚ,
      formatHours hours =
        (if ⌊hours⌋ = 0 then
          toString (jsRound ((hours - (⌊hours⌋ : ℚ)) * 60)) ++ " minutes"
        else if jsRound ((hours - (⌊hours⌋ : ℚ)) * 60) = 0 then
          toString ⌊hours⌋ ++ (if ⌊hours⌋ = 1 then " hour" else " hours")
        else
          toString ⌊hours⌋ ++ "h " ++
            toString (jsRound ((hours - (⌊hours⌋ : ℚ)) * 60)) ++ "m") := by
  refine ⟨?_, ?_, ?_, ?_, fun hours => rfl⟩
  · rw [formatHours]
    norm_num [jsRound]
    decide
  · rw [formatHours]
    norm_num [jsRound]
    decide
  · rw [formatHours]
    norm_num [jsRound]
    decide
  · rw [formatHours]
    norm_num [jsRound]
    decide

/-- C9: when the minute component rounds (half-up) to a full `60`,
`formatHours` does not carry it into the hour component: the output is
`"60 minutes"` when the whole-hour part is `0` and `"{h}h 60m"`
otherwise, never the next whole hour. -/
theorem formatHours_sixtyMinute_carry (q : ℚ)
    (h : jsRound ((q - (⌊q⌋ : ℚ)) * 60) = 60) :
    formatHours q =
      (if ⌊q⌋ = 0 then "60 minutes" else toString ⌊q⌋ ++ "h 60m") := by
  rw [formatHours]
  simp only [h]
  by_cases hz : ⌊q⌋ = 0
  · simp only [hz, if_pos rfl]
    decide
  · rw [if_neg hz, if_neg hz, if_neg (by decide : ¬ (60 : ℤ) = 0)]
    rw [String.append_assoc, String.append_assoc]
    congr 1

/-- C9 witness: `formatHours 1.9999` renders as `"1h 60m"`, not
`"2 hours"`. -/
theorem formatHours_sixtyMinute_carry_witness :
    jsRound (((19999/10000 : ℚ) - ((⌊(19999/10000 : ℚ)⌋ : ℤ) : ℚ)) * 60) = 60 ∧
    formatHours (19999/10000 : ℚ) =
      (if ⌊(19999/10000 : ℚ)⌋ = 0 then "60 minutes"
       else toString ⌊(19999/10000 : ℚ)⌋ ++ "h 60m") ∧
    formatHours (19999/10000 : ℚ) = "1h 60m" := by
  have h : jsRound (((19999/10000 : ℚ) - ((⌊(19999/10000 : ℚ)⌋ : ℤ) : ℚ)) * 60) = 60 := by
    norm_num [jsRound]
  have h2 := formatHours_sixtyMinute_carry (19999/10000 : ℚ) h
  refine ⟨h, h2, ?_⟩
  rw [h2]
  norm_num
  decide

/-- C6: the derived record status label is `"No Punch In"` when
`punchIn` is absent, else `"Missing Punch Out"` when `punchOut` is
absent, else `"Short Day"` when `workingHours < 4`, else `"Full Day"`
when `workingHours ≥ 8`, else `"Partial Day"`; a completed record with
`workingHours = 8.5` gets `"Full Day"`. -/
theorem getRecordStatus_spec (r : AttendanceRecord) :
    (r.punchIn = none → getRecordStatus r = "No Punch In") ∧
    (r.punchIn.isSome → r.punchOut = none →
      getRecordStatus r = "Missing Punch Out") ∧
    (r.punchIn.isSome → r.punchOut.isSome → r.workingHours < 4 →
      getRecordStatus r = "Short Day") ∧
    (r.punchIn.isSome → r.punchOut.isSome → 8 ≤ r.workingHours →
      getRecordStatus r = "Full Day") ∧
    (r.punchIn.isSome → r.punchOut.isSome → 4 ≤ r.workingHours →
      r.workingHours < 8 → getRecordStatus r = "Partial Day") ∧
    (r.punchIn.isSome → r.punchOut.isSome → r.workingHours = 17/2 →
      getRecordStatus r = "Full Day") := by
  refine ⟨?_, ?_, ?_, ?_, ?_, ?_⟩
  · intro h
    simp [getRecordStatus, h]
  · intro h1 h2
    obtain ⟨t, ht⟩ := Option.isSome_iff_exists.mp h1
    simp [getRecordStatus, ht, h2]
  · intro h1 h2 h3
    obtain ⟨t, ht⟩ := Option.isSome_iff_exists.mp h1
    obtain ⟨u, hu⟩ := Option.isSome_iff_exists.mp h2
    simp [getRecordStatus, ht, hu, h3]
  · intro h1 h2 h3
    obtain ⟨t, ht⟩ := Option.isSome_iff_exists.mp h1
    obtain ⟨u, hu⟩ := Option.isSome_iff_exists.mp h2
    have h4 : ¬ r.workingHours < 4 := by linarith
    simp [getRecordStatus, ht, hu, h4, h3]
  · intro h1 h2 h3 h4
    obtain ⟨t, ht⟩ := Option.isSome_iff_exists.mp h1
    obtain ⟨u, hu⟩ := Option.isSome_iff_exists.mp h2
    have h5 : ¬ r.workingHours < 4 := by linarith
    have h6 : ¬ 8 ≤ r.workingHours := by linarith
    simp [getRecordStatus, ht, hu, h5, h6]
  · intro h1 h2 h3
    obtain ⟨t, ht⟩ := Option.isSome_iff_exists.mp h1
    obtain ⟨u, hu⟩ := Option.isSome_iff_exists.mp h2
    have h4 : ¬ r.workingHours < 4 := by rw [h3]; norm_num
    have h5 : (8 : ℚ) ≤ r.workingHours := by rw [h3]; norm_num
    simp [getRecordStatus, ht, hu, h4, h5]

/-- C6 witness: a record punched in at `09:00:00` and out at
`17:30:00` with `workingHours = 8.5` has status `"Full Day"`. -/
theorem getRecordStatus_spec_witness :
    getRecordStatus
      ⟨7, some ⟨9, 0, 0⟩, some 1, some ⟨17, 30, 0⟩, some 2, 17/2, "ok"⟩ =
      "Full Day" :=
  (getRecordStatus_spec
      ⟨7, some ⟨9, 0, 0⟩, some 1, some ⟨17, 30, 0⟩, some 2, 17/2, "ok"⟩).2.2.2.2.2
    rfl rfl rfl

/-- The fresh record `punchIn` writes on success. -/
def freshRecord (env : Env) : AttendanceRecord :=
  ⟨env.today, some env.currentTime, some env.nowInstant, none, none, 0, ""⟩

theorem punchIn_eq (env : Env) (store : Store) (writeOk : Bool)
    (userEmail : String) (hu : userEmail ≠ "") :
    punchIn env store writeOk userEmail =
      (if ((lookupRecord store userEmail env.today).map
          (·.punchIn.isSome)).getD false then
        (.alreadyPunchedIn, store)
      else if writeOk then
        (.ok env.currentTime env.today,
         setRecord store userEmail env.today (freshRecord env))
      else (.persistenceFailure, store)) := by
  rw [punchIn, if_neg hu]
  rfl

/-- C2: `punchIn` fails with `AlreadyPunchedIn` exactly when today's
record exists and has `punchIn` set (whether or not `punchOut` is
set); otherwise it creates today's record with `punchIn` = current
time, `punchInTimestamp` = current instant, `punchOut` absent,
`workingHours = 0`, `notes = ""`, and persists it via the store. -/
theorem punchIn_spec (env : Env) (store : Store) (writeOk : Bool)
    (userEmail : String) (hu : userEmail ≠ "") :
    ((punchIn env store writeOk userEmail).1 = .alreadyPunchedIn ↔
      ∃ rec, lookupRecord store userEmail env.today = some rec ∧
        rec.punchIn.isSome) ∧
    ((¬ ∃ rec, lookupRecord store userEmail env.today = some rec ∧
        rec.punchIn.isSome) →
      punchIn env store true userEmail =
        (.ok env.currentTime env.today,
         setRecord store userEmail env.today (freshRecord env)) ∧
      lookupRecord (punchIn env store true userEmail).2 userEmail env.today =
        some (freshRecord env)) := by
  constructor
  · rw [punchIn_eq env store writeOk userEmail hu]
    cases h : lookupRecord store userEmail env.today with
    | none => cases writeOk <;> simp
    | some rec =>
      by_cases hpi : rec.punchIn.isSome
      · simp [hpi]
      · cases writeOk <;> simp [hpi]
  · intro hno
    have hexist : ((lookupRecord store userEmail env.today).map
        (·.punchIn.isSome)).getD false = false := by
      cases h : lookupRecord store userEmail env.today with
      | none => simp
      | some rec =>
        by_cases hpi : rec.punchIn.isSome
        · exact absurd ⟨rec, h, hpi⟩ hno
        · simp [hpi]
    rw [punchIn_eq env store true userEmail hu, hexist]
    simp [lookupRecord_setRecord_self]

/-- C2 witness: punching in on an empty store succeeds and writes the
fresh record. -/
theorem punchIn_spec_witness :
    ("u@x.com" : String) ≠ "" ∧
    (¬ ∃ rec, lookupRecord [] "u@x.com" 5 = some rec ∧ rec.punchIn.isSome) ∧
    punchIn ⟨5, ⟨9, 0, 0⟩, 11⟩ [] true "u@x.com" =
      (.ok ⟨9, 0, 0⟩ 5,
       setRecord [] "u@x.com" 5 (freshRecord ⟨5, ⟨9, 0, 0⟩, 11⟩)) ∧
    lookupRecord (punchIn ⟨5, ⟨9, 0, 0⟩, 11⟩ [] true "u@x.com").2
        "u@x.com" 5 = some (freshRecord ⟨5, ⟨9, 0, 0⟩, 11⟩) := by
  have hu : ("u@x.com" : String) ≠ "" := by decide
  have hno : ¬ ∃ rec, lookupRecord [] "u@x.com" 5 = some rec ∧
      rec.punchIn.isSome := by
    rintro ⟨rec, hrec, _⟩
    simp [lookupRecord, lookupEntry] at hrec
  have h := (punchIn_spec ⟨5, ⟨9, 0, 0⟩, 11⟩ [] true "u@x.com" hu).2 hno
  exact ⟨hu, hno, h.1, h.2⟩

/-- C1: `punchOut` applies its error checks in order — `NoPunchInFound`
when today's record is absent, else `AlreadyPunchedOut` when
`punchOut` is already set, else `PunchInMissing` when `punchIn` is
absent — and otherwise succeeds, setting `workingHours` to
`hoursBetween(punchIn, now)`, setting `punchOut` and
`punchOutTimestamp`, storing the trimmed notes, and persisting via the
store. -/
theorem punchOut_spec (env : Env) (store : Store) (writeOk : Bool)
    (userEmail notes : String) (hu : userEmail ≠ "") :
    (lookupRecord store userEmail env.today = none →
      punchOut env store writeOk userEmail notes = (.noPunchInFound, store)) ∧
    (∀ rec, lookupRecord store userEmail env.today = some rec →
      (rec.punchOut.isSome →
        punchOut env store writeOk userEmail notes = (.alreadyPunchedOut, store)) ∧
      (rec.punchOut = none → rec.punchIn = none →
        punchOut env store writeOk userEmail notes = (.punchInMissing, store)) ∧
      (∀ pin, rec.punchOut = none → rec.punchIn = some pin →
        punchOut env store writeOk userEmail notes =
          (if writeOk then
            (.ok env.currentTime (calculateHours pin env.currentTime)
               (formatHours (calculateHours pin env.currentTime)) env.today,
             setRecord store userEmail env.today
               (closeRecord rec env.currentTime env.nowInstant
                  (calculateHours pin env.currentTime) notes))
          else (.persistenceFailure, store)) ∧
        lookupRecord (punchOut env store true userEmail notes).2
            userEmail env.today =
          some (closeRecord rec env.currentTime env.nowInstant
             (calculateHours pin env.currentTime) notes))) := by
  constructor
  · intro h
    rw [punchOut, if_neg hu, h]
  · intro rec hrec
    refine ⟨?_, ?_, ?_⟩
    · intro hpo
      rw [punchOut, if_neg hu, hrec]
      simp [hpo]
    · intro hpo hpi
      rw [punchOut, if_neg hu, hrec]
      simp [hpo, hpi]
    · intro pin hpo hpi
      constructor
      · rw [punchOut, if_neg hu, hrec]
        simp only [hpo, Option.isSome_none, Bool.false_eq_true, if_false, hpi]
      · rw [punchOut, if_neg hu, hrec]
        simp only [hpo, Option.isSome_none, Bool.false_eq_true, if_false, hpi,
          if_pos rfl]
        exact lookupRecord_setRecord_self store userEmail env.today _

/-- C1 witness: a user with an open record punched in at `09:00:00`
punches out at `17:30:00`; the call succeeds with the closed record
persisted and the notes trimmed. -/
theorem punchOut_spec_witness :
    ("u@x.com" : String) ≠ "" ∧
    lookupRecord [("u@x.com", [(5, ⟨5, some ⟨9, 0, 0⟩, some 3, none, none, 0, ""⟩)])]
        "u@x.com" 5 =
      some ⟨5, some ⟨9, 0, 0⟩, some 3, none, none, 0, ""⟩ ∧
    punchOut ⟨5, ⟨17, 30, 0⟩, 9⟩
        [("u@x.com", [(5, ⟨5, some ⟨9, 0, 0⟩, some 3, none, none, 0, ""⟩)])]
        true "u@x.com" " done " =
      (if true then
        (.ok ⟨17, 30, 0⟩ (calculateHours ⟨9, 0, 0⟩ ⟨17, 30, 0⟩)
           (formatHours (calculateHours ⟨9, 0, 0⟩ ⟨17, 30, 0⟩)) 5,
         setRecord [("u@x.com", [(5, ⟨5, some ⟨9, 0, 0⟩, some 3, none, none, 0, ""⟩)])]
           "u@x.com" 5
           (closeRecord ⟨5, some ⟨9, 0, 0⟩, some 3, none, none, 0, ""⟩
              ⟨17, 30, 0⟩ 9 (calculateHours ⟨9, 0, 0⟩ ⟨17, 30, 0⟩) " done "))
      else (.persistenceFailure,
        [("u@x.com", [(5, ⟨5, some ⟨9, 0, 0⟩, some 3, none, none, 0, ""⟩)])])) := by
  have hu : ("u@x.com" : String) ≠ "" := by decide
  have hrec : lookupRecord
      [("u@x.com", [(5, ⟨5, some ⟨9, 0, 0⟩, some 3, none, none, 0, ""⟩)])]
      "u@x.com" 5 =
      some ⟨5, some ⟨9, 0, 0⟩, some 3, none, none, 0, ""⟩ := by
    simp [lookupRecord, lookupEntry]
  refine ⟨hu, hrec, ?_⟩
  exact (((punchOut_spec ⟨5, ⟨17, 30, 0⟩, 9⟩
    [("u@x.com", [(5, ⟨5, some ⟨9, 0, 0⟩, some 3, none, none, 0, ""⟩)])]
    true "u@x.com" " done " hu).2
      ⟨5, some ⟨9, 0, 0⟩, some 3, none, none, 0, ""⟩ hrec).2.2
        ⟨9, 0, 0⟩ rfl rfl).1

/-- C10: if today's record exists but has no `punchIn` (a corrupted
record), `punchIn` succeeds and replaces the whole record with the
fresh punch-in shell, discarding any stored `punchOut`,
`punchOutTimestamp`, `workingHours` and `notes` for that date. -/
theorem punchIn_replaces_corrupt_record (env : Env) (store : Store)
    (userEmail : String) (rec : AttendanceRecord) (hu : userEmail ≠ "")
    (hrec : lookupRecord store userEmail env.today = some rec)
    (hpi : rec.punchIn = none) :
    (punchIn env store true userEmail).1 = .ok env.currentTime env.today ∧
    lookupRecord (punchIn env store true userEmail).2 userEmail env.today =
      some (freshRecord env) := by
  have hexist : ((lookupRecord store userEmail env.today).map
      (·.punchIn.isSome)).getD false = false := by
    rw [hrec]
    simp [hpi]
  rw [punchIn_eq env store true userEmail hu, hexist]
  simp [lookupRecord_setRecord_self]

/-- C10 witness: a record for today carrying only a `punchOut`,
positive `workingHours` and notes is wholly replaced by a fresh
punch-in shell. -/
theorem punchIn_replaces_corrupt_record_witness :
    ("a@b.c" : String) ≠ "" ∧
    lookupRecord [("a@b.c", [(7, ⟨7, none, none, some ⟨18, 0, 0⟩, some 4, 9, "old"⟩)])]
        "a@b.c" 7 =
      some ⟨7, none, none, some ⟨18, 0, 0⟩, some 4, 9, "old"⟩ ∧
    (⟨7, none, none, some ⟨18, 0, 0⟩, some 4, 9, "old"⟩ : AttendanceRecord).punchIn
      = none ∧
    (punchIn ⟨7, ⟨8, 15, 0⟩, 21⟩
        [("a@b.c", [(7, ⟨7, none, none, some ⟨18, 0, 0⟩, some 4, 9, "old"⟩)])]
        true "a@b.c").1 = .ok ⟨8, 15, 0⟩ 7 ∧
    lookupRecord (punchIn ⟨7, ⟨8, 15, 0⟩, 21⟩
        [("a@b.c", [(7, ⟨7, none, none, some ⟨18, 0, 0⟩, some 4, 9, "old"⟩)])]
        true "a@b.c").2 "a@b.c" 7 =
      some (freshRecord ⟨7, ⟨8, 15, 0⟩, 21⟩) := by
  have hu : ("a@b.c" : String) ≠ "" := by decide
  have hrec : lookupRecord
      [("a@b.c", [(7, ⟨7, none, none, some ⟨18, 0, 0⟩, some 4, 9, "old"⟩)])]
      "a@b.c" 7 =
      some ⟨7, none, none, some ⟨18, 0, 0⟩, some 4, 9, "old"⟩ := by
    simp [lookupRecord, lookupEntry]
  have h := punchIn_replaces_corrupt_record ⟨7, ⟨8, 15, 0⟩, 21⟩
    [("a@b.c", [(7, ⟨7, none, none, some ⟨18, 0, 0⟩, some 4, 9, "old"⟩)])]
    "a@b.c" ⟨7, none, none, some ⟨18, 0, 0⟩, some 4, 9, "old"⟩ hu hrec rfl
  exact ⟨hu, hrec, rfl, h.1, h.2⟩

/-- C8: when the store write fails during `punchIn` or `punchOut`,
the persisted record mapping is left unchanged, and an operation that
reaches the write step returns `PersistenceFailure`. -/
theorem writeFailure_spec (env : Env) (store : Store)
    (userEmail notes : String) :
    (punchIn env store false userEmail).2 = store ∧
    (punchOut env store false userEmail notes).2 = store ∧
    (userEmail ≠ "" →
      (¬ ∃ rec, lookupRecord store userEmail env.today = some rec ∧
        rec.punchIn.isSome) →
      (punchIn env store false userEmail).1 = .persistenceFailure) ∧
    (userEmail ≠ "" →
      ∀ rec pin, lookupRecord store userEmail env.today = some rec →
        rec.punchOut = none → rec.punchIn = some pin →
        (punchOut env store false userEmail notes).1 = .persistenceFailure) := by
  refine ⟨?_, ?_, ?_, ?_⟩
  · rw [punchIn]
    by_cases hu : userEmail = ""
    · rw [if_pos hu]
    · rw [if_neg hu]
      by_cases hc : ((lookupRecord store userEmail env.today).map
          (·.punchIn.isSome)).getD false
      · simp only [hc, if_true]
      · simp only [hc, Bool.false_eq_true, if_false]
  · rw [punchOut]
    by_cases hu : userEmail = ""
    · rw [if_pos hu]
    · rw [if_neg hu]
      cases h : lookupRecord store userEmail env.today with
      | none => rfl
      | some rec =>
        by_cases hpo : rec.punchOut.isSome
        · simp only [hpo, if_true]
        · simp only [hpo, Bool.false_eq_true, if_false]
          cases hpi : rec.punchIn with
          | none => rfl
          | some pin => rfl
  · intro hu hno
    have hexist : ((lookupRecord store userEmail env.today).map
        (·.punchIn.isSome)).getD false = false := by
      cases h : lookupRecord store userEmail env.today with
      | none => simp
      | some rec =>
        by_cases hpi : rec.punchIn.isSome
        · exact absurd ⟨rec, h, hpi⟩ hno
        · simp [hpi]
    rw [punchIn, if_neg hu]
    simp [hexist]
  · intro hu rec pin hrec hpo hpi
    rw [punchOut, if_neg hu, hrec]
    simp [hpo, hpi]

/-- C8 witness: with a failing store write, punch-in on an empty
store and punch-out on an open record both leave the mapping unchanged
and report `PersistenceFailure`. -/
theorem writeFailure_spec_witness :
    (punchIn ⟨5, ⟨9, 0, 0⟩, 11⟩
      [("u@x.com", [(5, ⟨5, some ⟨9, 0, 0⟩, some 3, none, none, 0, ""⟩)])]
      false "w@x.com").2 =
      [("u@x.com", [(5, ⟨5, some ⟨9, 0, 0⟩, some 3, none, none, 0, ""⟩)])] ∧
    (punchOut ⟨5, ⟨17, 0, 0⟩, 12⟩
      [("u@x.com", [(5, ⟨5, some ⟨9, 0, 0⟩, some 3, none, none, 0, ""⟩)])]
      false "u@x.com" "n").2 =
      [("u@x.com", [(5, ⟨5, some ⟨9, 0, 0⟩, some 3, none, none, 0, ""⟩)])] ∧
    (punchIn ⟨5, ⟨9, 0, 0⟩, 11⟩
      [("u@x.com", [(5, ⟨5, some ⟨9, 0, 0⟩, some 3, none, none, 0, ""⟩)])]
      false "w@x.com").1 = .persistenceFailure ∧
    (punchOut ⟨5, ⟨17, 0, 0⟩, 12⟩
      [("u@x.com", [(5, ⟨5, some ⟨9, 0, 0⟩, some 3, none, none, 0, ""⟩)])]
      false "u@x.com" "n").1 = .persistenceFailure := by
  have h1 := writeFailure_spec ⟨5, ⟨9, 0, 0⟩, 11⟩
    [("u@x.com", [(5, ⟨5, some ⟨9, 0, 0⟩, some 3, none, none, 0, ""⟩)])]
    "w@x.com" "n"
  have h2 := writeFailure_spec ⟨5, ⟨17, 0, 0⟩, 12⟩
    [("u@x.com", [(5, ⟨5, some ⟨9, 0, 0⟩, some 3, none, none, 0, ""⟩)])]
    "u@x.com" "n"
  have hno : ¬ ∃ rec, lookupRecord
      [("u@x.com", [(5, ⟨5, some ⟨9, 0, 0⟩, some 3, none, none, 0, ""⟩)])]
      "w@x.com" 5 = some rec ∧ rec.punchIn.isSome := by
    rintro ⟨rec, hrec, _⟩
    simp [lookupRecord, lookupEntry] at hrec
  have hrec : lookupRecord
      [("u@x.com", [(5, ⟨5, some ⟨9, 0, 0⟩, some 3, none, none, 0, ""⟩)])]
      "u@x.com" 5 =
      some ⟨5, some ⟨9, 0, 0⟩, some 3, none, none, 0, ""⟩ := by
    simp [lookupRecord, lookupEntry]
  exact ⟨h1.1, h2.2.1,
    h1.2.2.1 (by decide) hno,
    h2.2.2.2 (by decide) ⟨5, some ⟨9, 0, 0⟩, some 3, none, none, 0, ""⟩
      ⟨9, 0, 0⟩ hrec rfl rfl⟩

/-- C5: `getAttendanceHistory` returns entries only for dates inside
the inclusive range `[startDate, endDate]` for which the user has a
record in the store, and the result is sorted by date descending
(newest first). -/
theorem getAttendanceHistory_spec (store : Store) (userEmail : String)
    (startDate endDate : Nat) :
    (∀ e ∈ getAttendanceHistory store userEmail startDate endDate,
      startDate ≤ e.date ∧ e.date ≤ endDate ∧
      ∃ rec, (e.date, rec) ∈ (lookupEntry userEmail store).getD [] ∧
        e = enrich e.date rec) ∧
    List.Sorted newestFirst
      (getAttendanceHistory store userEmail startDate endDate) := by
  constructor
  · intro e he
    simp only [getAttendanceHistory] at he
    rw [List.mem_insertionSort] at he
    obtain ⟨p, hp, hep⟩ := List.mem_map.mp he
    obtain ⟨d, rec⟩ := p
    obtain ⟨hmem, hcond⟩ := List.mem_filter.mp hp
    simp only [Bool.and_eq_true, decide_eq_true_eq] at hcond
    have hdate : e.date = d := by rw [← hep]; rfl
    refine ⟨?_, ?_, rec, ?_, ?_⟩
    · rw [hdate]; exact hcond.1
    · rw [hdate]; exact hcond.2
    · rw [hdate]; exact hmem
    · rw [hdate, ← hep]
  · simp only [getAttendanceHistory]
    exact List.sorted_insertionSort newestFirst _

/-- C5 witness: on a store holding three dated records, every entry
returned for the range `[4, 6]` is in range and backed by a stored
record, and the result is sorted newest first. -/
theorem getAttendanceHistory_spec_witness :
    (∀ e ∈ getAttendanceHistory
        [("u@x.com",
          [(4, ⟨4, some ⟨9, 0, 0⟩, some 1, some ⟨17, 0, 0⟩, some 2, 8, ""⟩),
           (6, ⟨6, some ⟨8, 0, 0⟩, some 3, none, none, 0, ""⟩),
           (9, ⟨9, some ⟨7, 0, 0⟩, some 4, none, none, 0, ""⟩)])]
        "u@x.com" 4 6,
      4 ≤ e.date ∧ e.date ≤ 6 ∧
      ∃ rec, (e.date, rec) ∈ (lookupEntry "u@x.com"
          [("u@x.com",
            [(4, ⟨4, some ⟨9, 0, 0⟩, some 1, some ⟨17, 0, 0⟩, some 2, 8, ""⟩),
             (6, ⟨6, some ⟨8, 0, 0⟩, some 3, none, none, 0, ""⟩),
             (9, ⟨9, some ⟨7, 0, 0⟩, some 4, none, none, 0, ""⟩)])]).getD [] ∧
        e = enrich e.date rec) ∧
    List.Sorted newestFirst
      (getAttendanceHistory
        [("u@x.com",
          [(4, ⟨4, some ⟨9, 0, 0⟩, some 1, some ⟨17, 0, 0⟩, some 2, 8, ""⟩),
           (6, ⟨6, some ⟨8, 0, 0⟩, some 3, none, none, 0, ""⟩),
           (9, ⟨9, some ⟨7, 0, 0⟩, some 4, none, none, 0, ""⟩)])]
        "u@x.com" 4 6) :=
  getAttendanceHistory_spec
    [("u@x.com",
      [(4, ⟨4, some ⟨9, 0, 0⟩, some 1, some ⟨17, 0, 0⟩, some 2, 8, ""⟩),
       (6, ⟨6, some ⟨8, 0, 0⟩, some 3, none, none, 0, ""⟩),
       (9, ⟨9, some ⟨7, 0, 0⟩, some 4, none, none, 0, ""⟩)])]
    "u@x.com" 4 6

theorem foldl_sumStep (l : List HistoryEntry) (t : ℚ) (w p : Nat) :
    l.foldl sumStep (t, w, p) =
      (t + ((l.filter fun r => r.punchIn.isSome && decide (0 < r.workingHours)).map
          (fun r => r.workingHours)).sum,
       w + (l.filter fun r => r.punchIn.isSome && decide (0 < r.workingHours)).length,
       p + (l.filter fun r => r.punchIn.isSome).length) := by
  induction l generalizing t w p with
  | nil => simp
  | cons hd tl ih =>
    rw [List.foldl_cons]
    by_cases h1 : hd.punchIn.isSome
    · by_cases h2 : 0 < hd.workingHours
      · rw [show sumStep (t, w, p) hd = (t + hd.workingHours, w + 1, p + 1) by
          simp [sumStep, h1, h2]]
        rw [ih]
        simp [List.filter_cons, h1, h2, add_assoc]
        constructor <;> omega
      · rw [show sumStep (t, w, p) hd = (t, w, p + 1) by simp [sumStep, h1, h2]]
        rw [ih]
        simp [List.filter_cons, h1, h2, add_assoc]
        omega
    · rw [show sumStep (t, w, p) hd = (t, w, p) by simp [sumStep, h1]]
      rw [ih]
      simp [List.filter_cons, h1]

theorem foldl_monthStep (l : List HistoryEntry) (t : ℚ) (w p f : Nat) :
    l.foldl monthStep (t, w, p, f) =
      (t + ((l.filter fun r => r.punchIn.isSome && decide (0 < r.workingHours)).map
          (fun r => r.workingHours)).sum,
       w + (l.filter fun r => r.punchIn.isSome && decide (0 < r.workingHours)).length,
       p + (l.filter fun r => r.punchIn.isSome).length,
       f + (l.filter fun r => r.punchIn.isSome && decide (0 < r.workingHours) &&
             decide (8 ≤ r.workingHours)).length) := by
  induction l generalizing t w p f with
  | nil => simp
  | cons hd tl ih =>
    rw [List.foldl_cons]
    by_cases h1 : hd.punchIn.isSome
    · by_cases h2 : 0 < hd.workingHours
      · by_cases h3 : (8 : ℚ) ≤ hd.workingHours
        · rw [show monthStep (t, w, p, f) hd =
              (t + hd.workingHours, w + 1, p + 1, f + 1) by
            simp [monthStep, h1, h2, h3]]
          rw [ih]
          simp [List.filter_cons, h1, h2, h3, add_assoc]
          refine ⟨by omega, by omega, by omega⟩
        · rw [show monthStep (t, w, p, f) hd =
              (t + hd.workingHours, w + 1, p + 1, f) by
            simp [monthStep, h1, h2, h3]]
          rw [ih]
          simp [List.filter_cons, h1, h2, h3, add_assoc]
          constructor <;> omega
      · rw [show monthStep (t, w, p, f) hd = (t, w, p + 1, f) by
          simp [monthStep, h1, h2]]
        rw [ih]
        simp [List.filter_cons, h1, h2, add_assoc]
        omega
    · rw [show monthStep (t, w, p, f) hd = (t, w, p, f) by simp [monthStep, h1]]
      rw [ih]
      simp [List.filter_cons, h1]

theorem filter_worked_eq (l : List HistoryEntry)
    (h : ∀ e ∈ l, 0 < e.workingHours → e.punchIn.isSome) :
    (l.filter fun r => r.punchIn.isSome && decide (0 < r.workingHours)) =
      l.filter fun r => decide (0 < r.workingHours) := by
  apply List.filter_congr
  intro a ha
  by_cases h2 : 0 < a.workingHours
  · simp [h2, h a ha h2]
  · simp [h2]

theorem length_filter_and_le (l : List HistoryEntry)
    (p q : HistoryEntry → Bool) :
    (l.filter fun r => p r && q r).length ≤ (l.filter p).length := by
  induction l with
  | nil => simp
  | cons hd tl ih =>
    by_cases h1 : p hd <;> by_cases h2 : q hd <;>
      simp [List.filter_cons, h1, h2] <;> omega

/-- C4: in every weekly or monthly summary (of a store whose entries
never carry positive `workingHours` without a `punchIn`, the invariant
the punch state machine maintains), `totalHours` is the sum of
`workingHours` over exactly the entries counted in `daysWorked` (those
with `workingHours > 0`), `daysPresent` counts the entries with
`punchIn` set and is always at least `daysWorked`, and `averageHours`
is `totalHours / daysWorked` when `daysWorked > 0` and `0` otherwise. -/
theorem summary_aggregation_spec (store : Store) (userEmail : String)
    (weekStartDate monthStart monthEnd : Nat)
    (hW : ∀ e ∈ (getWeeklySummary store userEmail weekStartDate).records,
      0 < e.workingHours → e.punchIn.isSome)
    (hM : ∀ e ∈ (getMonthlySummary store userEmail monthStart monthEnd).records,
      0 < e.workingHours → e.punchIn.isSome) :
    (let S := getWeeklySummary store userEmail weekStartDate
     S.totalHours = ((S.records.filter fun r => decide (0 < r.workingHours)).map
         (fun r => r.workingHours)).sum ∧
     S.daysWorked = (S.records.filter fun r => decide (0 < r.workingHours)).length ∧
     S.daysPresent = (S.records.filter fun r => r.punchIn.isSome).length ∧
     S.daysWorked ≤ S.daysPresent ∧
     S.averageHours =
       (if 0 < S.daysWorked then S.totalHours / (S.daysWorked : ℚ) else 0)) ∧
    (let M := getMonthlySummary store userEmail monthStart monthEnd
     M.totalHours = ((M.records.filter fun r => decide (0 < r.workingHours)).map
         (fun r => r.workingHours)).sum ∧
     M.daysWorked = (M.records.filter fun r => decide (0 < r.workingHours)).length ∧
     M.daysPresent = (M.records.filter fun r => r.punchIn.isSome).length ∧
     M.daysWorked ≤ M.daysPresent ∧
     M.averageHours =
       (if 0 < M.daysWorked then M.totalHours / (M.daysWorked : ℚ) else 0)) := by
  constructor
  · simp only [getWeeklySummary] at hW ⊢
    rw [foldl_sumStep]
    simp only [zero_add]
    rw [filter_worked_eq _ hW]
    refine ⟨rfl, rfl, trivial, ?_, trivial⟩
    rw [← filter_worked_eq _ hW]
    exact length_filter_and_le _ _ _
  · simp only [getMonthlySummary] at hM ⊢
    rw [foldl_monthStep]
    simp only [zero_add]
    rw [filter_worked_eq _ hM]
    refine ⟨rfl, rfl, trivial, ?_, trivial⟩
    rw [← filter_worked_eq _ hM]
    exact length_filter_and_le _ _ _

/-- A small concrete store used by the aggregation witness: a full
day, an open day with no hours yet, and a short closed day. -/
def sampleStore : Store :=
  [("u@x.com",
    [(4, ⟨4, some ⟨9, 0, 0⟩, some 1, some ⟨17, 0, 0⟩, some 2, 8, ""⟩),
     (5, ⟨5, some ⟨8, 0, 0⟩, some 3, none, none, 0, ""⟩),
     (6, ⟨6, some ⟨9, 30, 0⟩, some 4, some ⟨12, 30, 0⟩, some 5, 3, "x"⟩)])]

/-- C4 witness: the aggregation identities hold for the weekly summary
starting at day 4 and the monthly summary over days 1..30 of
`sampleStore`. -/
theorem summary_aggregation_spec_witness :
    (∀ e ∈ (getWeeklySummary sampleStore "u@x.com" 4).records,
      0 < e.workingHours → e.punchIn.isSome) ∧
    (∀ e ∈ (getMonthlySummary sampleStore "u@x.com" 1 30).records,
      0 < e.workingHours → e.punchIn.isSome) ∧
    ((let S := getWeeklySummary sampleStore "u@x.com" 4
      S.totalHours = ((S.records.filter fun r => decide (0 < r.workingHours)).map
          (fun r => r.workingHours)).sum ∧
      S.daysWorked = (S.records.filter fun r => decide (0 < r.workingHours)).length ∧
      S.daysPresent = (S.records.filter fun r => r.punchIn.isSome).length ∧
      S.daysWorked ≤ S.daysPresent ∧
      S.averageHours =
        (if 0 < S.daysWorked then S.totalHours / (S.daysWorked : ℚ) else 0)) ∧
     (let M := getMonthlySummary sampleStore "u@x.com" 1 30
      M.totalHours = ((M.records.filter fun r => decide (0 < r.workingHours)).map
          (fun r => r.workingHours)).sum ∧
      M.daysWorked = (M.records.filter fun r => decide (0 < r.workingHours)).length ∧
      M.daysPresent = (M.records.filter fun r => r.punchIn.isSome).length ∧
      M.daysWorked ≤ M.daysPresent ∧
      M.averageHours =
        (if 0 < M.daysWorked then M.totalHours / (M.daysWorked : ℚ) else 0))) := by
  have hW : ∀ e ∈ (getWeeklySummary sampleStore "u@x.com" 4).records,
      0 < e.workingHours → e.punchIn.isSome := by decide
  have hM : ∀ e ∈ (getMonthlySummary sampleStore "u@x.com" 1 30).records,
      0 < e.workingHours → e.punchIn.isSome := by decide
  exact ⟨hW, hM, summary_aggregation_spec sampleStore "u@x.com" 4 1 30 hW hM⟩
